import Mathlib

/-!
Verification of the deadline-reminder scheduling engine of GSOMPASS (`App.py`).

The development shallowly embeds the functions the claims are about:

* `convert_to_datetime` (App.py, lines 286-312): the deadline resolver;
* the reminder-set construction and job (re)scheduling inside
  `schedule_reminders_for_user` (App.py, lines 2435-2506);
* the sweep `check_reminders_now` (App.py, lines 2581-2591);
* the read-through sheet cache `get_cached_sheet_data` /
  `invalidate_sheet_cache` together with the write paths
  `GoogleSheetsHelper.update_sheet` and `GoogleSheetsHelper.delete_row`.

Python text and helper functions are modelled directly from the source:
`str.split(sep)` (keeping empty fragments), `int(...)` on optionally signed
decimal strings (whitespace stripped), `str.lower`, substring containment
(Python's `in` on strings), and `datetime` construction/`replace`, which
raise `ValueError` on out-of-calendar-range fields but `OverflowError` when
an argument does not even fit the C `int` CPython converts it into.
Machine time zones are a single fixed
zone in the source (`MOSCOW_TZ`); `localize` does not change any field we
model, so timestamps are plain calendar records.
-/

/-- One fragment-keeping split on a separator character, Python's
`str.split(sep)`: `splitChars '.' "a..b" = ["a", "", "b"]` as char lists. -/
def splitChars (sep : Char) : List Char → List (List Char)
  | [] => [[]]
  | c :: cs =>
    let r := splitChars sep cs
    if c == sep then [] :: r
    else
      match r with
      | [] => [[c]]
      | g :: gs => (c :: g) :: gs

/-- Python `str.split(sep)` on strings. -/
def splitStr (sep : Char) (s : String) : List String :=
  (splitChars sep s.toList).map (fun cs => String.mk cs)

/-- Does the character occur in the string (Python `c in s`)? -/
def containsChar (c : Char) (s : String) : Bool :=
  s.toList.contains c

/-- Is `n` an initial segment of `h`? -/
def startsWithChars : List Char → List Char → Bool
  | [], _ => true
  | _ :: _, [] => false
  | a :: as, b :: bs => a == b && startsWithChars as bs

/-- Does `n` occur contiguously inside `h`?  Used for Python's substring
test `needle in haystack`. -/
def hasSubChars (n : List Char) : List Char → Bool
  | [] => startsWithChars n []
  | c :: h => startsWithChars n (c :: h) || hasSubChars n h

/-- Python's `needle in haystack` on strings. -/
def strHasSub (needle hay : String) : Bool :=
  hasSubChars needle.toList hay.toList

/-- Strip leading and trailing whitespace, as Python `int` does before
parsing its argument. -/
def stripSpaces (cs : List Char) : List Char :=
  ((cs.dropWhile Char.isWhitespace).reverse.dropWhile Char.isWhitespace).reverse

/-- Value of a pure digit string. -/
def digitsToNat (cs : List Char) : Nat :=
  cs.foldl (fun acc c => acc * 10 + (c.toNat - 48)) 0

/-- Parse a nonempty all-digit fragment. -/
def parseDigits (cs : List Char) : Option Nat :=
  if !cs.isEmpty && cs.all Char.isDigit then some (digitsToNat cs) else none

/-- Python `int(s)` on an optionally signed decimal string: `some` value on
success, `none` where CPython raises `ValueError`. -/
def pyInt (s : String) : Option Int :=
  match stripSpaces s.toList with
  | '+' :: rest => (parseDigits rest).map Int.ofNat
  | '-' :: rest => (parseDigits rest).map (fun n => -(n : Int))
  | cs => (parseDigits cs).map Int.ofNat

/-- Python `str.lower()` restricted to the characters that occur in the
user table (`"True"`, `"true"`, ...). -/
def pyLower (s : String) : String :=
  String.mk (s.toList.map Char.toLower)

/-- A calendar date (the value of Python `datetime.date()`). -/
structure Date where
  year : Nat
  month : Nat
  day : Nat
deriving DecidableEq, Repr

/-- A timezone-aware wall-clock instant in the single fixed zone
(`MOSCOW_TZ`); `pytz.localize` leaves every modelled field unchanged. -/
structure PyDateTime where
  date : Date
  hour : Nat
  minute : Nat
deriving DecidableEq, Repr

/-- Gregorian leap-year test, as encoded by Python's `datetime` library. -/
def isLeapYear (y : Nat) : Bool :=
  (y % 4 == 0 && y % 100 != 0) || y % 400 == 0

/-- Length of month `m` (1-based) of year `y`. -/
def daysInMonth (y m : Nat) : Nat :=
  [31, if isLeapYear y then 29 else 28,
   31, 30, 31, 30, 31, 31, 30, 31, 30, 31].getD (m - 1) 0

/-- The exceptions raised by the failure points inside
`convert_to_datetime`: out-of-calendar-range fields, failed unpacking and
failed `int` parses raise `ValueError`, while an integer argument of
`datetime()` / `dt.replace()` outside the signed 32-bit C `int` range makes
CPython's argument conversion raise `OverflowError` instead. -/
inductive PyExc where
  | valueError
  | overflowError
deriving DecidableEq, Repr

/-- Does the integer fit the signed 32-bit C `int` that CPython converts
`datetime`/`replace` arguments into?  Outside this range the call raises
`OverflowError`, not `ValueError`. -/
def fitsCInt (v : Int) : Bool :=
  decide (-2147483648 ≤ v ∧ v ≤ 2147483647)

/-- `datetime(year, month, day)`: `Except.ok` on a valid Gregorian date
within Python's `MINYEAR..MAXYEAR` range; a month or day that does not fit
a C `int` raises `OverflowError` during argument conversion, any other
invalid field raises `ValueError`. -/
def mkDate (y : Nat) (month day : Int) : Except PyExc Date :=
  if fitsCInt month && fitsCInt day then
    if 1 ≤ y ∧ y ≤ 9999 ∧ 1 ≤ month ∧ month ≤ 12 ∧ 1 ≤ day ∧
        day ≤ (daysInMonth y month.toNat : Int) then
      Except.ok ⟨y, month.toNat, day.toNat⟩
    else Except.error PyExc.valueError
  else Except.error PyExc.overflowError

/-- Python `date` comparison `a < b` (lexicographic on year, month, day). -/
def dateLt (a b : Date) : Bool :=
  a.year < b.year ||
    (a.year == b.year &&
      (a.month < b.month || (a.month == b.month && a.day < b.day)))

/-- Days between year 1 January 1 and the given date (proleptic Gregorian
ordinal, as used by Python `date` subtraction). -/
def dateOrdinal (d : Date) : Nat :=
  365 * (d.year - 1) + ((d.year - 1) / 4 - (d.year - 1) / 100 + (d.year - 1) / 400) +
    (((List.range (d.month - 1)).map (fun i => daysInMonth d.year (i + 1))).sum) + d.day

/-- `(b - a).days` for Python dates: the signed whole-day difference. -/
def daysBetween (a b : Date) : Int :=
  (dateOrdinal b : Int) - (dateOrdinal a : Int)

/-- Date phase of `convert_to_datetime` (App.py lines 292-301): parse
`"DD.MM"`, build the date in the current year, roll the year forward when
the candidate already lies strictly before today's date, rebuild. -/
def datePhase (date_str : String) (now : Date) : Except PyExc Date :=
  match splitStr '.' date_str with
  | [dstr, mstr] =>
    match pyInt dstr, pyInt mstr with
    | some day, some month =>
      match mkDate now.year month day with
      | Except.ok proposed =>
        let year := if dateLt proposed now then now.year + 1 else now.year
        match mkDate year month day with
        | Except.ok d => Except.ok d
        | Except.error e => Except.error e
      | Except.error e => Except.error e
    | _, _ => Except.error PyExc.valueError
  | _ => Except.error PyExc.valueError

/-- The branch condition of App.py line 303:
`':' in start_time and start_time not in ["schedule", "По расписанию"]`. -/
def timeCond (start : String) : Bool :=
  containsChar ':' start && !(start == "schedule" || start == "По расписанию")

/-- Time phase of `convert_to_datetime` (App.py lines 303-307): an exact
clock time is parsed from a non-sentinel string containing `':'`
(an hour or minute beyond the C `int` range makes `dt.replace` raise
`OverflowError` at argument conversion, other out-of-range values raise
`ValueError`), anything else defaults to `23:59`. -/
def timePhase (start : String) : Except PyExc (Nat × Nat) :=
  if timeCond start then
    match splitStr ':' start with
    | [hs, ms] =>
      match pyInt hs, pyInt ms with
      | some h, some mi =>
        if fitsCInt h && fitsCInt mi then
          if 0 ≤ h ∧ h ≤ 23 ∧ 0 ≤ mi ∧ mi ≤ 59 then
            Except.ok (h.toNat, mi.toNat)
          else Except.error PyExc.valueError
        else Except.error PyExc.overflowError
      | _, _ => Except.error PyExc.valueError
    | _ => Except.error PyExc.valueError
  else Except.ok (23, 59)

/-- The body of `convert_to_datetime` before its `except ValueError`
handler: either the resolved timestamp or the exception the body raises. -/
def convert_body (time_str date_str : String) (now : Date) :
    Except PyExc PyDateTime :=
  let start_time := (splitStr '-' time_str).headD ""
  match datePhase date_str now with
  | Except.error e => Except.error e
  | Except.ok d =>
    match timePhase start_time with
    | Except.error e => Except.error e
    | Except.ok hm => Except.ok ⟨d, hm.1, hm.2⟩

/-- `convert_to_datetime` (App.py lines 286-312): the body wrapped in
`try ... except ValueError: return None`.  The handler catches only
`ValueError` (mapped to the normal return `Except.ok none`); an
`OverflowError` raised by the body escapes to the caller
(`Except.error`).  `now` stands for the value of
`datetime.now(MOSCOW_TZ)` taken inside the function. -/
def convert_to_datetime (time_str date_str : String) (now : Date) :
    Except PyExc (Option PyDateTime) :=
  match convert_body time_str date_str now with
  | Except.ok dt => Except.ok (some dt)
  | Except.error PyExc.valueError => Except.ok none
  | Except.error PyExc.overflowError => Except.error PyExc.overflowError

/-- One entry of the reminder payload: the dictionary appended at App.py
lines 2470-2480. -/
structure TaskItem where
  subject : String
  task_type : String
  date : String
  time : String
  days_left : Int
  max_points : String
  format : String
  book_type : String
  details : String
deriving DecidableEq, Repr

/-- Per-row step of the reminder-set loop (App.py lines 2458-2480): group
filter, skip of empty subject or date, deadline resolution, and the 0-10
day notification window.  The loop's own `except Exception` catches any
exception that escapes `convert_to_datetime` (an `OverflowError`
included), so an error outcome skips the row just like a `None`. -/
def rowToTask (now : Date) (g : String) (row : List String) : Option TaskItem :=
  if 7 ≤ row.length ∧ row.getD 6 "" = g then
    if row.getD 0 "" = "" ∨ row.getD 4 "" = "" then none
    else
      match convert_to_datetime (row.getD 5 "") (row.getD 4 "") now with
      | Except.error _ => none
      | Except.ok none => none
      | Except.ok (some deadline) =>
        let days := daysBetween now deadline.date
        if 0 ≤ days ∧ days ≤ 10 then
          some { subject := row.getD 0 "", task_type := row.getD 1 "",
                 date := row.getD 4 "", time := row.getD 5 "",
                 days_left := days, max_points := row.getD 3 "",
                 format := row.getD 2 "", book_type := row.getD 7 "",
                 details := row.getD 8 "" }
        else none
  else none

/-- Stable insertion into a list already sorted by `days_left`: the new
element goes after every earlier element whose key is strictly smaller and
before the first element with an equal or larger key, exactly the order a
stable sort produces. -/
def insertByDays (x : TaskItem) : List TaskItem → List TaskItem
  | [] => [x]
  | y :: ys =>
    if y.days_left < x.days_left then y :: insertByDays x ys
    else x :: y :: ys

/-- Stable sort by `days_left`, modelling the stable
`tasks_for_reminder.sort(key=lambda x: x['days_left'])` of App.py
line 2485. -/
def sortByDays : List TaskItem → List TaskItem
  | [] => []
  | x :: xs => insertByDays x (sortByDays xs)

/-- The reminder set built by `schedule_reminders_for_user` from the data
rows (header already dropped): collect the in-window tasks in row order,
then sort stably by `days_left`. -/
def build_reminder_set (now : Date) (g : String) (rows : List (List String)) :
    List TaskItem :=
  sortByDays (rows.filterMap (rowToTask now g))

/-- A job held by the deferred task scheduler: its name and its fixed
payload (`data={'tasks': ...}` of App.py line 2500). -/
structure Job where
  name : String
  tasks : List TaskItem
deriving DecidableEq, Repr

/-- The user fields `schedule_reminders_for_user` reads
(`reminders_enabled` and `group`, with the empty group already mapped to
`none` by `get_user_data`, App.py line 321). -/
structure UserRec where
  reminders_enabled : Bool
  group : Option String
deriving DecidableEq, Repr

/-- The underlying data visible to one reschedule: user records, sheet
contents (as served by the cache, unchanged between the calls the claims
compare), and the current Moscow date. -/
structure Env where
  user : Nat → UserRec
  sheet : String → List (List String)
  now : Date

/-- The job name registered at App.py line 2501:
`f"daily_reminder_{user_id}"`. -/
def jobNameFor (u : Nat) : String :=
  "daily_reminder_" ++ Nat.repr u

/-- The cancellation condition of App.py line 2442:
`job.name and str(user_id) in job.name` — a truthy (nonempty) name that
contains the decimal form of the user id as a substring. -/
def cancelCond (u : Nat) (j : Job) : Bool :=
  decide (j.name ≠ "") && strHasSub (Nat.repr u) j.name

/-- The cancellation loop of App.py lines 2441-2443: every job matching
`cancelCond` is removed from the queue. -/
def cleanJobs (u : Nat) (jobs : List Job) : List Job :=
  jobs.filter (fun j => !cancelCond u j)

/-- `schedule_reminders_for_user` (App.py lines 2435-2506) acting on the
scheduler's job list: cancel matching jobs, stop if reminders are off or
no group is set or the sheet has at most a header row or the built set is
empty, otherwise register the single fresh daily job. -/
def schedule_reminders_for_user (env : Env) (jobs : List Job) (u : Nat) :
    List Job :=
  let remaining := cleanJobs u jobs
  let ud := env.user u
  if ud.reminders_enabled = false then remaining
  else
    match ud.group with
    | none => remaining
    | some g =>
      let data := env.sheet g
      if data.length ≤ 1 then remaining
      else
        let tasks := build_reminder_set env.now g (data.drop 1)
        if tasks = [] then remaining
        else remaining ++ [⟨jobNameFor u, tasks⟩]

/-- Row filter of the sweep (App.py line 2586):
`len(row) > 2 and row[2].lower() == 'true'`. -/
def enabledRow (row : List String) : Bool :=
  decide (2 < row.length) && (pyLower (row.getD 2 "") == "true")

/-- Body of the sweep loop.  `schedule_reminders_for_user` cannot raise
(its whole body sits in its own `try/except`, App.py lines 2437 and 2505),
so the returned list records exactly the user ids for which a reschedule
was attempted; a row whose id fails `int()` raises `ValueError`, which the
single `try/except` wrapping the whole loop (App.py lines 2583-2591)
catches, ending the sweep. -/
def sweepGo : List (List String) → List Int
  | [] => []
  | row :: rest =>
    if enabledRow row then
      match pyInt (row.getD 0 "") with
      | some u => u :: sweepGo rest
      | none => []
    else sweepGo rest

/-- `check_reminders_now` (App.py lines 2581-2591): iterate over the user
rows after the header, rescheduling every row with reminders enabled; the
result is the list of attempted user ids. -/
def check_reminders_now (users : List (List String)) : List Int :=
  sweepGo (users.drop 1)

/-- Cache TTL constant `CACHE_TTL = 300` (App.py line 64). -/
def CACHE_TTL : Nat := 300

/-- Global state of the cache layer: sheet contents held by the remote
store, a per-sheet flag saying whether a read of that sheet currently
succeeds (retries exhausted model `readOk = false`), the `SHEETS_CACHE`
map, and the current value of `time.time()`. -/
structure Sys where
  store : String → List (List String)
  readOk : String → Bool
  cache : String → Option (List (List String) × Nat)
  now : Nat

/-- `invalidate_sheet_cache(sheet_name)` (App.py lines 86-91): drop the
entry of one sheet. -/
def invalidate_sheet_cache (s : Sys) (name : String) : Sys :=
  { s with cache := fun n => if n = name then none else s.cache n }

/-- The fetch path of `get_cached_sheet_data` (App.py lines 75-84): call
the store; on success cache and return the rows, on failure the
`except` handler logs and returns `[]` as a normal value — `Except.ok`
marks a normal return, `Except.error` would mark an escaping exception. -/
def fetchAndCache (s : Sys) (name : String) :
    Except Unit (List (List String)) × Sys :=
  if s.readOk name then
    (Except.ok (s.store name),
     { s with cache := fun n =>
        if n = name then some (s.store name, s.now) else s.cache n })
  else (Except.ok [], s)

/-- `get_cached_sheet_data` (App.py lines 66-84): serve a cache entry
younger than `CACHE_TTL`, otherwise fetch. -/
def get_cached_sheet_data (s : Sys) (name : String) :
    Except Unit (List (List String)) × Sys :=
  match s.cache name with
  | some e => if s.now - e.2 < CACHE_TTL then (Except.ok e.1, s) else fetchAndCache s name
  | none => fetchAndCache s name

/-- `GoogleSheetsHelper.update_sheet` (App.py lines 173-198) on the success
path selected by `appendOk`: append the row, invalidate the sheet's cache
entry, return `True`; when the underlying append keeps failing the
exception propagates (`Except.error`) and nothing is invalidated. -/
def update_sheet (s : Sys) (name : String) (row : List String)
    (appendOk : Bool) : Except Unit Bool × Sys :=
  if appendOk then
    let s1 := { s with store := fun n =>
      if n = name then s.store n ++ [row] else s.store n }
    (Except.ok true, invalidate_sheet_cache s1 name)
  else (Except.error (), s)

/-- `GoogleSheetsHelper.delete_row` (App.py lines 267-276) with `delOk`
selecting the success path: delete the (1-based) row, invalidate the
sheet's cache entry, return `True`; on failure the handler returns `False`
without invalidating. -/
def delete_row (s : Sys) (name : String) (idx : Nat) (delOk : Bool) :
    Bool × Sys :=
  if delOk then
    let s1 := { s with store := fun n =>
      if n = name then (s.store n).eraseIdx (idx - 1) else s.store n }
    (true, invalidate_sheet_cache s1 name)
  else (false, s)

theorem mem_insertByDays {z x : TaskItem} :
    ∀ {l : List TaskItem}, z ∈ insertByDays x l ↔ z = x ∨ z ∈ l := by
  intro l
  induction l with
  | nil => simp [insertByDays]
  | cons y ys ih =>
    unfold insertByDays
    by_cases h : y.days_left < x.days_left
    · rw [if_pos h]
      simp only [List.mem_cons, ih]
      tauto
    · rw [if_neg h]
      simp only [List.mem_cons]

theorem mem_sortByDays {z : TaskItem} :
    ∀ {l : List TaskItem}, z ∈ sortByDays l ↔ z ∈ l := by
  intro l
  induction l with
  | nil => simp [sortByDays]
  | cons y ys ih =>
    unfold sortByDays
    rw [mem_insertByDays, ih, List.mem_cons]

theorem pairwise_insertByDays {x : TaskItem} :
    ∀ {l : List TaskItem},
      l.Pairwise (fun a b => a.days_left ≤ b.days_left) →
      (insertByDays x l).Pairwise (fun a b => a.days_left ≤ b.days_left) := by
  intro l
  induction l with
  | nil =>
    intro _
    simp [insertByDays]
  | cons y ys ih =>
    intro h
    rw [List.pairwise_cons] at h
    obtain ⟨hy, hys⟩ := h
    unfold insertByDays
    by_cases hlt : y.days_left < x.days_left
    · rw [if_pos hlt, List.pairwise_cons]
      refine ⟨?_, ih hys⟩
      intro z hz
      rcases mem_insertByDays.mp hz with rfl | hz2
      · exact le_of_lt hlt
      · exact hy z hz2
    · rw [if_neg hlt, List.pairwise_cons]
      refine ⟨?_, List.pairwise_cons.mpr ⟨hy, hys⟩⟩
      intro z hz
      rcases List.mem_cons.mp hz with rfl | hz2
      · exact le_of_not_lt hlt
      · exact le_trans (le_of_not_lt hlt) (hy z hz2)

theorem pairwise_sortByDays :
    ∀ l : List TaskItem,
      (sortByDays l).Pairwise (fun a b => a.days_left ≤ b.days_left)
  | [] => by simp [sortByDays]
  | x :: xs => by
    unfold sortByDays
    exact pairwise_insertByDays (pairwise_sortByDays xs)

/-- The resolved deadline timestamp of a stored payload entry, recomputed
from its stored `time` and `date` fields exactly as the builder resolved
it. -/
def tsOfTask (now : Date) (t : TaskItem) : Except PyExc (Option PyDateTime) :=
  convert_to_datetime t.time t.date now

/-- Timestamp order `a ≤ b` on resolved instants. -/
def ptLe (a b : PyDateTime) : Bool :=
  dateLt a.date b.date ||
    (a.date == b.date &&
      (a.hour < b.hour || (a.hour == b.hour && a.minute ≤ b.minute)))

/-- Ordering demanded by the claim for two consecutive payload entries:
strictly fewer days left, or equal days left and resolved timestamps in
ascending order. -/
def claimPairOk (now : Date) (a b : TaskItem) : Bool :=
  a.days_left < b.days_left ||
    (a.days_left == b.days_left &&
      match tsOfTask now a, tsOfTask now b with
      | Except.ok (some x), Except.ok (some y) => ptLe x y
      | _, _ => true)

/-- The claim's sortedness property (ascending `days_left`, ties broken by
ascending resolved timestamp), checked on consecutive entries. -/
def claimSorted (now : Date) : List TaskItem → Bool
  | [] => true
  | [_] => true
  | a :: b :: rest => claimPairOk now a b && claimSorted now (b :: rest)

/-- C5 counterexample: two rows of group `G1` share the deadline date
`25.12` (equal `days_left = 5`), the first resolving to 20:00 and the
second to 10:00.  The stable sort by `days_left` alone keeps the input
order, so the built list has the 20:00 entry before the 10:00 entry,
violating the claimed timestamp tie-break. -/
theorem c5_counterexample :
    claimSorted ⟨2024, 12, 20⟩
      (build_reminder_set ⟨2024, 12, 20⟩ "G1"
        [["A", "HW", "Online", "10", "25.12", "20:00", "G1"],
         ["B", "HW", "Online", "10", "25.12", "10:00", "G1"]]) = false := by
  decide

/-- C5 (amended): the reminder set is sorted ascending by `days_left`;
entries with equal `days_left` keep their input row order (the sort of
App.py line 2485 is stable and uses only `days_left` as key), rather than
being reordered by resolved timestamp. -/
theorem c5_sorted_by_days (now : Date) (g : String) (rows : List (List String)) :
    (build_reminder_set now g rows).Pairwise
      (fun a b => a.days_left ≤ b.days_left) :=
  pairwise_sortByDays _

theorem rowToTask_days {now : Date} {g : String} {r : List String} {e : TaskItem}
    (hrt : rowToTask now g r = some e) : 0 ≤ e.days_left ∧ e.days_left ≤ 10 := by
  unfold rowToTask at hrt
  by_cases h1 : 7 ≤ r.length ∧ r.getD 6 "" = g
  · rw [if_pos h1] at hrt
    by_cases h2 : r.getD 0 "" = "" ∨ r.getD 4 "" = ""
    · rw [if_pos h2] at hrt
      cases hrt
    · rw [if_neg h2] at hrt
      rcases hc : convert_to_datetime (r.getD 5 "") (r.getD 4 "") now with e | od
      · rw [hc] at hrt
        cases hrt
      · rcases od with _ | dl
        · rw [hc] at hrt
          cases hrt
        · rw [hc] at hrt
          dsimp only at hrt
          by_cases h3 : 0 ≤ daysBetween now dl.date ∧ daysBetween now dl.date ≤ 10
          · rw [if_pos h3] at hrt
            injection hrt with he2
            rw [← he2]
            exact h3
          · rw [if_neg h3] at hrt
            cases hrt
  · rw [if_neg h1] at hrt
    cases hrt

/-- C6: every entry of the built reminder set has `0 ≤ days_left ≤ 10`,
where `days_left` is the stored whole-day difference between resolved
deadline and the reference date; rows outside the window are never
included. -/
theorem c6_window (now : Date) (g : String) (rows : List (List String))
    (e : TaskItem) (he : e ∈ build_reminder_set now g rows) :
    0 ≤ e.days_left ∧ e.days_left ≤ 10 := by
  have h1 : e ∈ rows.filterMap (rowToTask now g) :=
    mem_sortByDays.mp (by simpa [build_reminder_set] using he)
  obtain ⟨r, _, hrt⟩ := List.mem_filterMap.mp h1
  exact rowToTask_days hrt

/-- Witness for C6: a concrete built set contains an entry, and the bound
holds for it. -/
theorem c6_window_witness :
    (∃ e ∈ build_reminder_set ⟨2024, 12, 20⟩ "G1"
        [["A", "HW", "Online", "10", "25.12", "10:00", "G1"]],
      0 ≤ e.days_left ∧ e.days_left ≤ 10) := by
  refine ⟨{ subject := "A", task_type := "HW", date := "25.12",
            time := "10:00", days_left := 5, max_points := "10",
            format := "Online", book_type := "", details := "" }, ?_, ?_⟩
  · decide
  · exact c6_window ⟨2024, 12, 20⟩ "G1"
      [["A", "HW", "Online", "10", "25.12", "10:00", "G1"]] _ (by decide)

/-- C7: a successful `update_sheet` append and a successful `delete_row`
both invalidate the written sheet's cache entry before returning, so the
cached read that follows goes to the store and returns the post-write
rows (or the empty-list fallback when the store read fails) — never a
value cached before the write. -/
theorem c7_write_invalidates (s : Sys) (name : String) (row : List String)
    (idx : Nat) :
    ((update_sheet s name row true).2.cache name = none ∧
      (get_cached_sheet_data (update_sheet s name row true).2 name).1 =
        (if s.readOk name then Except.ok (s.store name ++ [row])
         else Except.ok [])) ∧
    ((delete_row s name idx true).2.cache name = none ∧
      (get_cached_sheet_data (delete_row s name idx true).2 name).1 =
        (if s.readOk name then Except.ok ((s.store name).eraseIdx (idx - 1))
         else Except.ok [])) := by
  refine ⟨⟨?_, ?_⟩, ⟨?_, ?_⟩⟩
  · simp [update_sheet, invalidate_sheet_cache]
  · by_cases hr : s.readOk name
    · simp [update_sheet, invalidate_sheet_cache, get_cached_sheet_data,
        fetchAndCache, hr]
    · simp [update_sheet, invalidate_sheet_cache, get_cached_sheet_data,
        fetchAndCache, hr]
  · simp [delete_row, invalidate_sheet_cache]
  · by_cases hr : s.readOk name
    · simp [delete_row, invalidate_sheet_cache, get_cached_sheet_data,
        fetchAndCache, hr]
    · simp [delete_row, invalidate_sheet_cache, get_cached_sheet_data,
        fetchAndCache, hr]

/-- C8 counterexample: with an empty cache and a failing store read,
`get_cached_sheet_data` returns the empty list as a normal value
(`Except.ok`): the store error is swallowed by the handler, not
propagated to the caller. -/
theorem c8_counterexample :
    (get_cached_sheet_data
        ⟨fun _ => [["r1"]], fun _ => false, fun _ => none, 0⟩ "Users").1 =
      Except.ok [] ∧
    (⟨fun _ => [["r1"]], fun _ => false, fun _ => none, 0⟩ : Sys).cache "Users" =
      none := by
  exact ⟨rfl, rfl⟩

/-- C8 (amended): on a cache miss or a stale entry with a failing store
read, `get_cached_sheet_data` neither propagates an error nor serves the
stale entry: it returns the empty list as a normal value and leaves the
state unchanged. -/
theorem c8_error_swallowed (s : Sys) (name : String)
    (hfail : s.readOk name = false)
    (hmiss : s.cache name = none ∨
      ∃ d ts, s.cache name = some (d, ts) ∧ ¬ (s.now - ts < CACHE_TTL)) :
    get_cached_sheet_data s name = (Except.ok [], s) := by
  rcases hmiss with hnone | ⟨d, ts, hsome, hstale⟩
  · simp [get_cached_sheet_data, hnone, fetchAndCache, hfail]
  · simp [get_cached_sheet_data, hsome, if_neg hstale, fetchAndCache, hfail]

/-- Witness for C8 (amended): a stale entry together with a failing read
yields the empty-list normal return. -/
theorem c8_error_swallowed_witness :
    get_cached_sheet_data
        ⟨fun _ => [["r1"]], fun _ => false,
         fun _ => some ([["old"]], 0), 1000⟩ "Users" =
      (Except.ok [],
       ⟨fun _ => [["r1"]], fun _ => false,
        fun _ => some ([["old"]], 0), 1000⟩) := by
  exact c8_error_swallowed _ "Users" rfl
    (Or.inr ⟨[["old"]], 0, rfl, by decide⟩)

/-- C10 counterexample: `convert_to_datetime` is not total.  A month (or
an hour) too large for a C `int` makes `datetime()` (resp. `dt.replace`)
raise `OverflowError`, which the `except ValueError` handler does not
catch: the exception escapes to the caller instead of yielding `None`. -/
theorem c10_counterexample :
    convert_to_datetime "10:00" "01.5000000000" ⟨2024, 12, 20⟩ =
      Except.error PyExc.overflowError ∧
    convert_to_datetime "5000000000:00" "05.01" ⟨2024, 12, 20⟩ =
      Except.error PyExc.overflowError := by
  exact ⟨rfl, rfl⟩

/-- C10 (amended): the handler catches exactly the `ValueError`s the body
raises — for every pair of input strings and every reference date, either
the body resolves a timestamp, returned as a normal value, or it raises
`ValueError`, which the handler turns into the normal return `None`, or
it raises `OverflowError` (an integer component outside the C `int`
range passed to `datetime()`/`replace()`), which escapes to the caller:
the resolver is total only on inputs whose integer components avoid the
overflow path. -/
theorem c10_valueerror_caught (ts ds : String) (now : Date) :
    (∃ dt, convert_body ts ds now = Except.ok dt ∧
      convert_to_datetime ts ds now = Except.ok (some dt)) ∨
    (convert_body ts ds now = Except.error PyExc.valueError ∧
      convert_to_datetime ts ds now = Except.ok none) ∨
    (convert_body ts ds now = Except.error PyExc.overflowError ∧
      convert_to_datetime ts ds now = Except.error PyExc.overflowError) := by
  cases h : convert_body ts ds now with
  | ok dt =>
    exact Or.inl ⟨dt, rfl, by unfold convert_to_datetime; rw [h]⟩
  | error e =>
    cases e with
    | valueError =>
      exact Or.inr (Or.inl ⟨rfl, by unfold convert_to_datetime; rw [h]⟩)
    | overflowError =>
      exact Or.inr (Or.inr ⟨rfl, by unfold convert_to_datetime; rw [h]⟩)

/-- C9 counterexample: the second user row has an id (`"abc"`) that makes
`int(row[0])` raise; the single `try/except` wrapping the whole sweep loop
catches it and ends the sweep, so the valid enabled user `42` in the next
row is never attempted. -/
theorem c9_counterexample :
    enabledRow ["42", "G1", "true"] = true ∧
    pyInt "42" = some 42 ∧
    check_reminders_now
      [["id", "group", "rem"], ["abc", "G1", "true"], ["42", "G1", "true"]] =
      [] := by
  exact ⟨rfl, rfl, rfl⟩

theorem sweepGo_covers (rows : List (List String))
    (hids : ∀ r ∈ rows, enabledRow r = true →
      (pyInt (r.getD 0 "")).isSome = true) :
    ∀ r ∈ rows, enabledRow r = true →
      ∃ u, pyInt (r.getD 0 "") = some u ∧ u ∈ sweepGo rows := by
  induction rows with
  | nil =>
    intro r hr
    cases hr
  | cons row rest ih =>
    intro r hr hen
    by_cases hrow : enabledRow row = true
    · have h0 : (pyInt (row.getD 0 "")).isSome = true :=
        hids row (List.mem_cons_self _ _) hrow
      obtain ⟨u0, hu0⟩ := Option.isSome_iff_exists.mp h0
      have hgo : sweepGo (row :: rest) = u0 :: sweepGo rest := by
        conv_lhs => rw [sweepGo]
        rw [if_pos hrow, hu0]
      rcases List.mem_cons.mp hr with rfl | hr2
      · exact ⟨u0, hu0, by rw [hgo]; exact List.mem_cons_self _ _⟩
      · obtain ⟨u, hu, hmem⟩ :=
          ih (fun r2 hr2 => hids r2 (List.mem_cons_of_mem _ hr2)) r hr2 hen
        exact ⟨u, hu, by rw [hgo]; exact List.mem_cons_of_mem _ hmem⟩
    · have hgo : sweepGo (row :: rest) = sweepGo rest := by
        conv_lhs => rw [sweepGo]
        rw [if_neg hrow]
      rcases List.mem_cons.mp hr with rfl | hr2
      · exact absurd hen hrow
      · obtain ⟨u, hu, hmem⟩ :=
          ih (fun r2 hr2 => hids r2 (List.mem_cons_of_mem _ hr2)) r hr2 hen
        exact ⟨u, hu, by rw [hgo]; exact hmem⟩

/-- C9 (amended): failures inside one user's reschedule never abort the
sweep (the whole body of `schedule_reminders_for_user` sits in its own
`try/except`, so the call always returns); but because the sweep's single
`try/except` wraps the whole loop, a user row whose id fails integer
parsing ends the sweep.  When every reminders-enabled row carries a
parseable id, the sweep attempts the reschedule for every such user. -/
theorem c9_sweep_covers_all (users : List (List String))
    (hids : ∀ r ∈ users.drop 1, enabledRow r = true →
      (pyInt (r.getD 0 "")).isSome = true) :
    ∀ r ∈ users.drop 1, enabledRow r = true →
      ∃ u, pyInt (r.getD 0 "") = some u ∧ u ∈ check_reminders_now users :=
  sweepGo_covers (users.drop 1) hids

/-- Witness for C9 (amended): in a sweep whose enabled rows all parse,
user 7 is attempted. -/
theorem c9_sweep_covers_all_witness :
    ∃ u, pyInt (String.mk ['7']) = some u ∧
      u ∈ check_reminders_now
        [["id", "group", "rem"], ["7", "G1", "true"], ["8", "G2", "false"]] := by
  have h := c9_sweep_covers_all
    [["id", "group", "rem"], ["7", "G1", "true"], ["8", "G2", "false"]]
    (by decide) ["7", "G1", "true"] (by decide) (by decide)
  simpa using h

theorem strToList_append (a b : String) :
    (a ++ b).toList = a.toList ++ b.toList :=
  String.data_append a b

theorem startsWithChars_self : ∀ l : List Char, startsWithChars l l = true
  | [] => rfl
  | a :: as => by
    unfold startsWithChars
    rw [startsWithChars_self as]
    simp

theorem hasSubChars_append_self (n : List Char) :
    ∀ pre : List Char, hasSubChars n (pre ++ n) = true
  | [] => by
    cases n with
    | nil => rfl
    | cons c h =>
      show hasSubChars (c :: h) (c :: h) = true
      unfold hasSubChars
      rw [startsWithChars_self]
      simp
  | p :: pre => by
    show hasSubChars n (p :: (pre ++ n)) = true
    unfold hasSubChars
    rw [hasSubChars_append_self n pre]
    simp

theorem strHasSub_jobName (u : Nat) :
    strHasSub (Nat.repr u) (jobNameFor u) = true := by
  unfold strHasSub jobNameFor
  rw [strToList_append]
  exact hasSubChars_append_self _ _

theorem jobName_ne_empty (u : Nat) : jobNameFor u ≠ "" := by
  intro h
  have h2 := congrArg String.toList h
  rw [jobNameFor, strToList_append] at h2
  have h3 := (List.append_eq_nil.mp h2).1
  exact absurd h3 (by decide)

theorem cancelCond_of_name {u : Nat} {j : Job} (h : j.name = jobNameFor u) :
    cancelCond u j = true := by
  unfold cancelCond
  rw [h, strHasSub_jobName]
  simp [jobName_ne_empty u]

theorem filter_cleanJobs (u : Nat) (jobs : List Job) :
    (cleanJobs u jobs).filter (fun j => decide (j.name = jobNameFor u)) = [] := by
  induction jobs with
  | nil => rfl
  | cons j js ih =>
    unfold cleanJobs at ih ⊢
    rw [List.filter_cons]
    by_cases hc : cancelCond u j = true
    · rw [hc, if_neg (by simp)]
      exact ih
    · rw [Bool.not_eq_true] at hc
      have hne : ¬(j.name = jobNameFor u) := by
        intro h
        rw [cancelCond_of_name h] at hc
        cases hc
      rw [hc, if_pos (by simp), List.filter_cons, if_neg (by simpa using hne)]
      exact ih

theorem resched_decomp (env : Env) (jobs : List Job) (u : Nat) :
    ∃ rest, schedule_reminders_for_user env jobs u = cleanJobs u jobs ++ rest := by
  unfold schedule_reminders_for_user
  dsimp only
  split
  · exact ⟨[], (List.append_nil _).symm⟩
  · split
    · exact ⟨[], (List.append_nil _).symm⟩
    · split
      · exact ⟨[], (List.append_nil _).symm⟩
      · split
        · exact ⟨[], (List.append_nil _).symm⟩
        · exact ⟨_, rfl⟩

theorem resched_spec (env : Env) (u : Nat) (g : String)
    (hen : (env.user u).reminders_enabled = true)
    (hg : (env.user u).group = some g)
    (hlen : 1 < (env.sheet g).length)
    (hne : build_reminder_set env.now g ((env.sheet g).drop 1) ≠ [])
    (jobs : List Job) :
    schedule_reminders_for_user env jobs u =
      cleanJobs u jobs ++
        [⟨jobNameFor u, build_reminder_set env.now g ((env.sheet g).drop 1)⟩] := by
  unfold schedule_reminders_for_user
  dsimp only
  rw [hen, hg]
  rw [if_neg (by simp)]
  dsimp only
  rw [if_neg (Nat.not_le.mpr hlen), if_neg hne]

/-- C1 (amended): when the user has reminders enabled, a group set, a
sheet with data rows, and a nonempty freshly built reminder set, two
immediately successive reschedules over unchanged data leave exactly one
job named `daily_reminder_<u>`, and its payload is the freshly computed
reminder set.  (Without those conditions the operation leaves zero jobs
for the user, not one.) -/
theorem c1_reschedule_twice (env : Env) (jobs : List Job) (u : Nat)
    (g : String)
    (hen : (env.user u).reminders_enabled = true)
    (hg : (env.user u).group = some g)
    (hlen : 1 < (env.sheet g).length)
    (hne : build_reminder_set env.now g ((env.sheet g).drop 1) ≠ []) :
    (schedule_reminders_for_user env
        (schedule_reminders_for_user env jobs u) u).filter
        (fun j => decide (j.name = jobNameFor u)) =
      [⟨jobNameFor u, build_reminder_set env.now g ((env.sheet g).drop 1)⟩] := by
  rw [resched_spec env u g hen hg hlen hne
      (schedule_reminders_for_user env jobs u)]
  rw [List.filter_append, filter_cleanJobs]
  rw [List.filter_cons]
  simp

/-- Environment in which every user has reminders disabled and no group. -/
def envOff : Env :=
  ⟨fun _ => ⟨false, none⟩, fun _ => [], ⟨2024, 12, 20⟩⟩

/-- Environment with a single enabled user 7 in group `G1` whose sheet
holds one valid upcoming task. -/
def envOne : Env :=
  ⟨fun u => if u = 7 then ⟨true, some "G1"⟩ else ⟨false, none⟩,
   fun g => if g = "G1" then
      [["Subject", "Task Type", "Format", "Max Points", "Date", "Time",
        "Group", "Book Type", "Details"],
       ["A", "HW", "Online", "10", "25.12", "10:00", "G1"]]
    else [],
   ⟨2024, 12, 20⟩⟩

/-- C1 counterexample: for a user with reminders disabled, two successive
reschedules leave zero jobs named for the user, not exactly one — the
universally quantified claim fails without its enabling conditions. -/
theorem c1_counterexample :
    (envOff.user 5).reminders_enabled = false ∧
    ((schedule_reminders_for_user envOff
        (schedule_reminders_for_user envOff [] 5) 5).filter
        (fun j => decide (j.name = jobNameFor 5))).length = 0 := by
  exact ⟨rfl, by decide⟩

/-- Witness for C1 (amended): concrete double reschedule of user 7. -/
theorem c1_reschedule_twice_witness :
    (schedule_reminders_for_user envOne
        (schedule_reminders_for_user envOne [] 7) 7).filter
        (fun j => decide (j.name = jobNameFor 7)) =
      [⟨jobNameFor 7,
        build_reminder_set envOne.now "G1" ((envOne.sheet "G1").drop 1)⟩] :=
  c1_reschedule_twice envOne [] 7 "G1" rfl rfl (by decide) (by decide)

/-- C2 (amended): the cancellation step removes exactly the jobs whose
(nonempty) name contains the decimal form of `u` as a substring; a job of
another user `v` survives a reschedule of `u` precisely when `str(u)` does
not occur inside `daily_reminder_<v>` — not for every pair of distinct
users, since the ids embed by substring, which can collide (e.g. 1 and
11). -/
theorem c2_other_user_preserved (env : Env) (jobs : List Job) (u v : Nat)
    (j : Job) (hns : strHasSub (Nat.repr u) (jobNameFor v) = false)
    (hmem : j ∈ jobs) (hname : j.name = jobNameFor v) :
    j ∈ schedule_reminders_for_user env jobs u := by
  have hcc : cancelCond u j = false := by
    unfold cancelCond
    rw [hname, hns]
    simp
  have hclean : j ∈ cleanJobs u jobs :=
    List.mem_filter.mpr ⟨hmem, by rw [hcc]; rfl⟩
  obtain ⟨rest, hr⟩ := resched_decomp env jobs u
  rw [hr]
  exact List.mem_append_left _ hclean

/-- C2 counterexample: rescheduling user 1 cancels the job
`daily_reminder_11` of user 11, because `"1"` is a substring of the name
(`str(user_id) in job.name`, App.py line 2442): the claim that distinct
users' jobs are always left unchanged is false. -/
theorem c2_counterexample :
    jobNameFor 11 = "daily_reminder_11" ∧
    schedule_reminders_for_user envOff [⟨"daily_reminder_11", []⟩] 1 = [] := by
  exact ⟨rfl, by decide⟩

/-- Witness for C2 (amended): user 13's job survives a reschedule of
user 2. -/
theorem c2_other_user_preserved_witness :
    strHasSub (Nat.repr 2) (jobNameFor 13) = false ∧
    (⟨jobNameFor 13, []⟩ : Job) ∈
      schedule_reminders_for_user envOff [⟨jobNameFor 13, []⟩] 2 :=
  ⟨by decide,
   c2_other_user_preserved envOff [⟨jobNameFor 13, []⟩] 2 13
     ⟨jobNameFor 13, []⟩ (by decide) (List.mem_singleton.mpr rfl) rfl⟩

theorem mkDate_year {y : Nat} {m d : Int} {p : Date}
    (h : mkDate y m d = Except.ok p) : p.year = y := by
  unfold mkDate at h
  split at h
  · split at h
    · injection h with h2
      rw [← h2]
    · cases h
  · cases h

theorem datePhase_eq {ds : String} {now : Date} {day month : Int}
    {dstr mstr : String} {p : Date}
    (hsplit : splitStr '.' ds = [dstr, mstr])
    (hd : pyInt dstr = some day) (hmo : pyInt mstr = some month)
    (hp : mkDate now.year month day = Except.ok p)
    (hroll : dateLt p now = true →
      ∃ q, mkDate (now.year + 1) month day = Except.ok q) :
    ∃ d2, datePhase ds now = Except.ok d2 ∧
      d2.year = (if dateLt p now then now.year + 1 else now.year) := by
  unfold datePhase
  rw [hsplit]
  dsimp only
  rw [hd, hmo]
  dsimp only
  rw [hp]
  dsimp only
  by_cases hlt : dateLt p now = true
  · obtain ⟨q, hq⟩ := hroll hlt
    rw [if_pos hlt, hq]
    exact ⟨q, rfl, by rw [mkDate_year hq]⟩
  · rw [if_neg hlt, hp]
    exact ⟨p, rfl, by rw [mkDate_year hp]⟩

theorem convert_resolved {ts ds : String} {now : Date} {d2 : Date}
    {hm : Nat × Nat}
    (hdp : datePhase ds now = Except.ok d2)
    (ht : timePhase ((splitStr '-' ts).headD "") = Except.ok hm) :
    convert_to_datetime ts ds now = Except.ok (some ⟨d2, hm.1, hm.2⟩) := by
  unfold convert_to_datetime convert_body
  dsimp only
  rw [hdp]
  dsimp only
  rw [ht]

/-- C3 (amended): on a date string parsing to a `(day, month)` pair valid
in the reference year, with a time phase that succeeds, the resolver
returns a timestamp in year `now.year + 1` when the candidate date falls
strictly before today's date and in `now.year` otherwise — provided that
in the rollover case the pair is also a valid date in `now.year + 1`
(29 February rolling into a non-leap year instead makes the resolver
return `None`). -/
theorem c3_year_rollover (ts ds : String) (now : Date) (day month : Int)
    (dstr mstr : String) (p : Date) (hm : Nat × Nat)
    (hsplit : splitStr '.' ds = [dstr, mstr])
    (hd : pyInt dstr = some day) (hmo : pyInt mstr = some month)
    (hp : mkDate now.year month day = Except.ok p)
    (hroll : dateLt p now = true →
      ∃ q, mkDate (now.year + 1) month day = Except.ok q)
    (ht : timePhase ((splitStr '-' ts).headD "") = Except.ok hm) :
    ∃ dt, convert_to_datetime ts ds now = Except.ok (some dt) ∧
      dt.date.year = (if dateLt p now then now.year + 1 else now.year) := by
  obtain ⟨d2, hdp, hyear⟩ := datePhase_eq hsplit hd hmo hp hroll
  exact ⟨⟨d2, hm.1, hm.2⟩, convert_resolved hdp ht, hyear⟩

/-- C3 counterexample: `29.02` is a valid date of the (leap) reference
year 2024, it lies strictly before the reference date 2024-03-01, yet the
resolver returns `None` rather than a timestamp in 2025, because the
rebuilt `datetime(2025, 2, 29)` raises. -/
theorem c3_counterexample :
    mkDate 2024 2 29 = Except.ok ⟨2024, 2, 29⟩ ∧
    dateLt ⟨2024, 2, 29⟩ ⟨2024, 3, 1⟩ = true ∧
    convert_to_datetime "10:00" "29.02" ⟨2024, 3, 1⟩ = Except.ok none := by
  exact ⟨rfl, by decide, rfl⟩

/-- Witness for C3 (amended): `05.01` seen from 2024-12-20 rolls into
2025. -/
theorem c3_year_rollover_witness :
    ∃ dt, convert_to_datetime "10:00" "05.01" ⟨2024, 12, 20⟩ =
        Except.ok (some dt) ∧
      dt.date.year =
        (if dateLt ⟨2024, 1, 5⟩ ⟨2024, 12, 20⟩ then
          (⟨2024, 12, 20⟩ : Date).year + 1
        else (⟨2024, 12, 20⟩ : Date).year) :=
  c3_year_rollover "10:00" "05.01" ⟨2024, 12, 20⟩ 5 1 "05" "01"
    ⟨2024, 1, 5⟩ (10, 0) rfl rfl rfl rfl
    (fun _ => ⟨⟨2025, 1, 5⟩, rfl⟩) rfl

/-- C4 (amended): whenever the date phase succeeds, a time string whose
leading segment (before any `-`) either lacks `':'` or is one of the
sentinels `"schedule"` / `"По расписанию"` resolves to `23:59` on the
resolved date.  A non-sentinel segment containing `':'` must instead
parse as a valid `HH:MM` clock time, otherwise the resolver returns
`None` rather than defaulting to `23:59`. -/
theorem c4_default_end_of_day (ts ds : String) (now : Date) (d2 : Date)
    (hdp : datePhase ds now = Except.ok d2)
    (hcond : timeCond ((splitStr '-' ts).headD "") = false) :
    convert_to_datetime ts ds now = Except.ok (some ⟨d2, 23, 59⟩) := by
  have ht : timePhase ((splitStr '-' ts).headD "") = Except.ok (23, 59) := by
    unfold timePhase
    rw [if_neg (by rw [hcond]; simp)]
  exact convert_resolved hdp ht

/-- C4 counterexample: `"ab:cd"` is not a parseable `HH:MM` clock time and
not a sentinel, the date string is valid, yet the resolver returns `None`
instead of succeeding with `23:59`: the `int()` calls in the `':'` branch
raise. -/
theorem c4_counterexample :
    datePhase "05.01" ⟨2024, 12, 20⟩ = Except.ok ⟨2025, 1, 5⟩ ∧
    timeCond "ab:cd" = true ∧
    convert_to_datetime "ab:cd" "05.01" ⟨2024, 12, 20⟩ = Except.ok none := by
  exact ⟨rfl, by decide, rfl⟩

/-- Witness for C4 (amended): the sentinel time defaults to `23:59`. -/
theorem c4_default_end_of_day_witness :
    convert_to_datetime "По расписанию" "05.01" ⟨2024, 12, 20⟩ =
      Except.ok (some ⟨⟨2025, 1, 5⟩, 23, 59⟩) :=
  c4_default_end_of_day "По расписанию" "05.01" ⟨2024, 12, 20⟩
    ⟨2025, 1, 5⟩ rfl rfl
